import Mathlib

/-!
# Task manager: REST handlers, task operations, storage access and sweeper

A shallow embedding of the Go program (`internal/model`, `internal/repository`,
`internal/service`, `internal/handler`, `internal/timer`).

The Go code talks to a PostgreSQL table through `database/sql`.  The table is
represented by the list of its rows together with the state of the id
sequence; every SQL statement the repository sends is appended to a trace, so
that "which calls were made" is observable.  Whether a statement fails for a
reason outside the program (connection loss, a rejected value, ...) is decided
by an oracle `Env.fault`, indexed by the position of the statement in the trace.
A statement that fails leaves the table as it was.

Not represented: log lines and the lines printed by the sweeper (no effect on
table, results or responses), the byte layout of indented JSON (a body is kept
as the value that was encoded), errors that surface only while iterating over
a result set, and the ticker of `TaskTimer.Start`, each tick of which runs one
`checkCompletedTasks`.
-/

namespace TaskManager

/-! ## Data model (`internal/model/model.go`) -/

/-- A `time.Time` as far as this program can observe it: the calendar year
(which decides whether the JSON encoder accepts the time) and the nanoseconds elapsed
since the start of that year. -/
structure Time where
  year : Int
  nanos : Nat
deriving DecidableEq, Repr

/-- The zero value of `time.Time`: January 1, year 1, 00:00:00 UTC. -/
def Time.zero : Time := { year := 1, nanos := 0 }

/-- The struct `model.Task`. -/
structure Task where
  ID : Int
  Title : String
  Description : String
  Status : Int
  CreatedAt : Time
deriving DecidableEq, Repr

/-- The zero value of `model.Task` (`var task model.Task`). -/
def Task.zero : Task :=
  { ID := 0, Title := "", Description := "", Status := 0, CreatedAt := Time.zero }

/-- Error values that reach this program. -/
inductive Err where
  /-- any error reported by `database/sql` other than `sql.ErrNoRows` -/
  | dataAccess
  /-- the error of `json.MarshalIndent` -/
  | marshal
  /-- `strconv.ErrSyntax` -/
  | notANumber
  /-- `strconv.ErrRange` -/
  | outOfRange
deriving DecidableEq, Repr

/-- A Go slice `[]model.Task`: `none` is the nil slice. -/
abbrev TaskSlice := Option (List Task)

/-- The builtin `len` on a slice. -/
def len (s : TaskSlice) : Nat := (s.getD []).length

/-- The builtin `append(s, t)`: appending to the nil slice allocates. -/
def append (s : TaskSlice) (t : Task) : TaskSlice := some (s.getD [] ++ [t])

/-! ## The store -/

/-- The SQL statements of `task_repository.go`, with their arguments. -/
inductive Stmt where
  /-- `INSERT INTO tasks (title, description, status, created_at) VALUES ($1, $2, $3, $4) RETURNING id` -/
  | insert (title description : String) (status : Int) (createdAt : Time)
  /-- `SELECT id, title, description, status, created_at FROM tasks` -/
  | selectAll
  /-- `SELECT id, title, description, status, created_at FROM tasks WHERE id = $1` -/
  | selectByID (id : Int)
  /-- `UPDATE tasks SET title = $1, description = $2, status = $3 WHERE id = $4` -/
  | update (title description : String) (status : Int) (id : Int)
  /-- `DELETE FROM tasks WHERE id = $1` -/
  | delete (id : Int)
  /-- `SELECT id, title, description, status, created_at FROM tasks WHERE status = 2` -/
  | selectCompleted
deriving DecidableEq, Repr

/-- Modelled from the spec: the table `tasks` (its declaration is not part of
the sources): the rows in storage order, the next value of the sequence that
generates `id`, and the statements sent so far. -/
structure DB where
  rows : List Task
  seq : Int
  trace : List Stmt
deriving DecidableEq, Repr

/-- Modelled from the spec: `id` is the primary key of the table, no two rows
share an id. -/
def DB.PrimaryKey (db : DB) : Prop := (db.rows.map Task.ID).Nodup

instance (db : DB) : Decidable db.PrimaryKey := by
  unfold DB.PrimaryKey; infer_instance

/-- What the program does not control: which statements fail, and how the
store represents a timestamp it is given (precision, zone). -/
structure Env where
  fault : Nat → Bool
  stamp : Time → Time

/-- Record a statement as sent. -/
def DB.sent (db : DB) (s : Stmt) : DB := { db with trace := db.trace ++ [s] }

/-- Does the statement that is about to be sent fail -/
def Env.fails (env : Env) (db : DB) : Bool := env.fault db.trace.length

/-- The loop `for rows.Next() { ...; tasks = append(tasks, task) }` starting
from `var tasks []model.Task`. -/
def scanRows (rs : List Task) : TaskSlice := rs.foldl append none

/-! ## Storage access (`internal/repository/task_repository.go`) -/

namespace TaskRepository

/-- Go `Create`: insert the task with a generated id, which is written back
into the task.  Modelled from the spec: the insert "fails on constraint
violation", here when the generated id is already a key of the table (the
sequence has advanced all the same). -/
def Create (env : Env) (task : Task) (db : DB) : Task × Option Err × DB :=
  let db1 := db.sent (Stmt.insert task.Title task.Description task.Status task.CreatedAt)
  if env.fails db then (task, some Err.dataAccess, db1)
  else if db.seq ∈ db.rows.map Task.ID then
    (task, some Err.dataAccess, { db1 with seq := db.seq + 1 })
  else
    ({ task with ID := db.seq }, none,
      { db1 with
        rows := db.rows ++ [{ ID := db.seq, Title := task.Title, Description := task.Description,
                              Status := task.Status, CreatedAt := env.stamp task.CreatedAt }]
        seq := db.seq + 1 })

/-- Go `GetAll`. -/
def GetAll (env : Env) (db : DB) : TaskSlice × Option Err × DB :=
  let db1 := db.sent Stmt.selectAll
  if env.fails db then (none, some Err.dataAccess, db1)
  else (scanRows db.rows, none, db1)

/-- Go `GetByID`: `sql.ErrNoRows` becomes `(nil, nil)`; any other outcome
returns the address of the local task together with the error. -/
def GetByID (env : Env) (id : Int) (db : DB) : Option Task × Option Err × DB :=
  let db1 := db.sent (Stmt.selectByID id)
  if env.fails db then (some Task.zero, some Err.dataAccess, db1)
  else
    match db.rows.find? (fun r => r.ID == id) with
    | none => (none, none, db1)
    | some r => (some r, none, db1)

/-- Go `Update`. -/
def Update (env : Env) (task : Task) (db : DB) : Option Err × DB :=
  let db1 := db.sent (Stmt.update task.Title task.Description task.Status task.ID)
  if env.fails db then (some Err.dataAccess, db1)
  else
    (none, { db1 with
      rows := db.rows.map (fun r =>
        if r.ID = task.ID then
          { r with Title := task.Title, Description := task.Description, Status := task.Status }
        else r) })

/-- Go `Delete`. -/
def Delete (env : Env) (id : Int) (db : DB) : Option Err × DB :=
  let db1 := db.sent (Stmt.delete id)
  if env.fails db then (some Err.dataAccess, db1)
  else (none, { db1 with rows := db.rows.filter (fun r => r.ID ≠ id) })

/-- Go `GetCompletedTasks`. -/
def GetCompletedTasks (env : Env) (db : DB) : TaskSlice × Option Err × DB :=
  let db1 := db.sent Stmt.selectCompleted
  if env.fails db then (none, some Err.dataAccess, db1)
  else (scanRows (db.rows.filter (fun r => r.Status = 2)), none, db1)

end TaskRepository

/-! ## Task operations (`internal/service/task_service.go`) -/

namespace TaskService

/-- Go `CreateTask`; `now` is the value of `time.Now()`. -/
def CreateTask (env : Env) (now : Time) (title description : String) (status : Int) (db : DB) :
    Task × Option Err × DB :=
  let task : Task :=
    { ID := 0, Title := title, Description := description, Status := status, CreatedAt := now }
  TaskRepository.Create env task db

/-- Go `GetAllTasks`. -/
def GetAllTasks (env : Env) (db : DB) : TaskSlice × Option Err × DB :=
  TaskRepository.GetAll env db

/-- Go `GetTaskByID`. -/
def GetTaskByID (env : Env) (id : Int) (db : DB) : Option Task × Option Err × DB :=
  TaskRepository.GetByID env id db

/-- Go `UpdateTask`: the task handed to the repository has the zero time as
`CreatedAt`. -/
def UpdateTask (env : Env) (id : Int) (title description : String) (status : Int) (db : DB) :
    Option Err × DB :=
  let task : Task :=
    { ID := id, Title := title, Description := description, Status := status,
      CreatedAt := Time.zero }
  TaskRepository.Update env task db

/-- Go `DeleteTask`. -/
def DeleteTask (env : Env) (id : Int) (db : DB) : Option Err × DB :=
  TaskRepository.Delete env id db

/-- Go `GetCompletedTasks`. -/
def GetCompletedTasks (env : Env) (db : DB) : TaskSlice × Option Err × DB :=
  TaskRepository.GetCompletedTasks env db

end TaskService

/-! ## Sweeper (`internal/timer/timer.go`) -/

namespace TaskTimer

/-- Go `checkCompletedTasks`: one sweep pass. -/
def checkCompletedTasks (env : Env) (db : DB) : DB :=
  match TaskService.GetCompletedTasks env db with
  | (tasks, err, db1) =>
    match err with
    | some _ => db1
    | none =>
      if len tasks = 0 then db1
      else
        (tasks.getD []).foldl (fun d task => (TaskService.DeleteTask env task.ID d).2) db1

end TaskTimer

/-! ## Request handlers (`internal/handler/task_handler.go`)

The library functions the handlers call are embedded from their Go
definitions: `strconv.Atoi`, `encoding/json` on `model.Task`, `http.Error` and
the `http.ResponseWriter` methods. -/

/-- The largest `uint64`. -/
def maxUint64 : Nat := 2 ^ 64 - 1

/-- The digit loop of `strconv.ParseUint(s, 10, 64)`: a character that is not
a decimal digit ends it with a syntax error and value 0; a digit that makes the
value exceed 64 bits ends it with a range error and the largest value, without
looking at the characters after it. -/
def parseUintLoop : List Char → Nat → Nat × Option Err
  | [], n => (n, none)
  | c :: cs, n =>
    if c.isDigit then
      if n ≥ maxUint64 / 10 + 1 then (maxUint64, some Err.outOfRange)
      else if n * 10 + (c.toNat - 48) > maxUint64 then (maxUint64, some Err.outOfRange)
      else parseUintLoop cs (n * 10 + (c.toNat - 48))
    else (0, some Err.notANumber)

/-- Go `strconv.ParseUint(s, 10, 64)`. -/
def ParseUint (s : List Char) : Nat × Option Err :=
  if s = [] then (0, some Err.notANumber) else parseUintLoop s 0

/-- Go `strconv.ParseInt(s, 10, 0)` with 64-bit `int`: an optional sign, then
`ParseUint`; a syntax error gives 0, a value outside the `int64` range is
clamped to the nearest bound with a range error. -/
def ParseInt (s : List Char) : Int × Option Err :=
  match s with
  | [] => (0, some Err.notANumber)
  | c :: cs =>
    let neg := c = '-'
    let digits := if c = '+' ∨ c = '-' then cs else c :: cs
    match ParseUint digits with
    | (_, some Err.notANumber) => (0, some Err.notANumber)
    | (un, _) =>
      if ¬ neg ∧ un ≥ 2 ^ 63 then (2 ^ 63 - 1, some Err.outOfRange)
      else if neg ∧ un > 2 ^ 63 then (-(2 ^ 63), some Err.outOfRange)
      else (if neg then -(un : Int) else (un : Int), none)

/-- Go `strconv.Atoi` (its short-input path computes the same pair). -/
def Atoi (s : String) : Int × Option Err := ParseInt s.data

/-- What `json.MarshalIndent` encoded: `null`, one task object, or an array of
task objects. -/
inductive JSON where
  | null
  | task (t : Task)
  | array (ts : List Task)
deriving DecidableEq, Repr

/-- Go `Time.MarshalJSON` fails when the year is outside `[0, 9999]`. -/
def Time.marshals (t : Time) : Bool := decide (0 ≤ t.year) && decide (t.year < 10000)

/-- Go `json.MarshalIndent` on a `*model.Task`: integers and strings always
encode, the time may not. -/
def marshalTask (t : Task) : Option JSON :=
  if t.CreatedAt.marshals then some (JSON.task t) else none

/-- Go `json.MarshalIndent` on a `[]model.Task`: the nil slice encodes as
`null`, any other slice as an array of its elements. -/
def marshalTasks (s : TaskSlice) : Option JSON :=
  match s with
  | none => some JSON.null
  | some ts => if ts.all (fun t => t.CreatedAt.marshals) then some (JSON.array ts) else none

/-- One `Write` to the response body. -/
inductive Chunk where
  /-- literal bytes -/
  | raw (s : String)
  /-- the indented encoding of a value -/
  | encoded (v : JSON)
deriving DecidableEq, Repr

/-- The `http.ResponseWriter`: the `Content-Type` that is or will be sent, the
status once it is written, and the body written so far. -/
structure ResponseWriter where
  contentType : Option String
  status : Option Nat
  body : List Chunk
deriving DecidableEq, Repr

/-- A fresh response. -/
def ResponseWriter.new : ResponseWriter := { contentType := none, status := none, body := [] }

/-- Go `w.Header().Set("Content-Type", v)`: without effect once the header is sent. -/
def ResponseWriter.SetContentType (w : ResponseWriter) (v : String) : ResponseWriter :=
  match w.status with
  | none => { w with contentType := some v }
  | some _ => w

/-- Go `w.WriteHeader(code)`: only the first call counts. -/
def ResponseWriter.WriteHeader (w : ResponseWriter) (code : Nat) : ResponseWriter :=
  match w.status with
  | none => { w with status := some code }
  | some _ => w

/-- Go `w.Write(b)`: sends status 200 first if no status was written. -/
def ResponseWriter.Write (w : ResponseWriter) (c : Chunk) : ResponseWriter :=
  let w1 := w.WriteHeader 200
  { w1 with body := w1.body ++ [c] }

/-- Go `http.Error(w, msg, code)`. -/
def ResponseWriter.Error (w : ResponseWriter) (msg : String) (code : Nat) : ResponseWriter :=
  ((w.SetContentType "text/plain; charset=utf-8").WriteHeader code).Write (Chunk.raw (msg ++ "\n"))

/-- The parts of `*http.Request` the handlers read: the route variable
`mux.Vars(r)["id"]`, and what `json.NewDecoder(r.Body).Decode(&task)` makes of
the body (`none` when it returns an error). -/
structure Request where
  idVar : String
  body : Option Task
deriving DecidableEq, Repr

namespace TaskHandler

/-- Go `CreateTask` (POST /tasks). -/
def CreateTask (env : Env) (now : Time) (w : ResponseWriter) (r : Request) (db : DB) :
    ResponseWriter × DB :=
  match r.body with
  | none => (w.Error "Invalid request" 400, db)
  | some task =>
    match TaskService.CreateTask env now task.Title task.Description task.Status db with
    | (_, some _, db1) => (w.Error "Failed to create task" 500, db1)
    | (createdTask, none, db1) =>
      let w1 := (w.SetContentType "application/json").WriteHeader 201
      match marshalTask createdTask with
      | none => (w1.Error "Internal server error" 500, db1)
      | some response => (w1.Write (Chunk.encoded response), db1)

/-- Go `GetAllTasks` (GET /tasks). -/
def GetAllTasks (env : Env) (w : ResponseWriter) (_r : Request) (db : DB) :
    ResponseWriter × DB :=
  match TaskService.GetAllTasks env db with
  | (_, some _, db1) => (w.Error "Internal server error" 500, db1)
  | (tasks, none, db1) =>
    let w1 := w.SetContentType "application/json"
    match marshalTasks tasks with
    | none => (w1.Error "Internal server error" 500, db1)
    | some response => (w1.Write (Chunk.encoded response), db1)

/-- Go `GetTaskByID` (GET /tasks/{id}). -/
def GetTaskByID (env : Env) (w : ResponseWriter) (r : Request) (db : DB) :
    ResponseWriter × DB :=
  let id := (Atoi r.idVar).1
  match TaskService.GetTaskByID env id db with
  | (_, some _, db1) => (w.Error "Internal server error" 500, db1)
  | (none, none, db1) => (w.Error "Task not found" 404, db1)
  | (some task, none, db1) =>
    let w1 := w.SetContentType "application/json"
    match marshalTask task with
    | none => (w1.Error "Internal server error" 500, db1)
    | some response => (w1.Write (Chunk.encoded response), db1)

/-- Go `UpdateTask` (PUT /tasks/{id}). -/
def UpdateTask (env : Env) (w : ResponseWriter) (r : Request) (db : DB) :
    ResponseWriter × DB :=
  let id := (Atoi r.idVar).1
  match r.body with
  | none => (w.Error "Invalid request" 400, db)
  | some task =>
    match TaskService.UpdateTask env id task.Title task.Description task.Status db with
    | (some _, db1) => (w.Error "Internal server error" 500, db1)
    | (none, db1) =>
      ((w.SetContentType "application/json").Write (Chunk.raw "\"Task updated\""), db1)

/-- Go `DeleteTask` (DELETE /tasks/{id}). -/
def DeleteTask (env : Env) (w : ResponseWriter) (r : Request) (db : DB) :
    ResponseWriter × DB :=
  let id := (Atoi r.idVar).1
  match TaskService.DeleteTask env id db with
  | (some _, db1) => (w.Error "Internal server error" 500, db1)
  | (none, db1) =>
    ((w.SetContentType "application/json").Write (Chunk.raw "\"Task deleted\""), db1)

end TaskHandler

/-! ## Sample stores and environments -/

/-- No statement fails; the store keeps timestamps to the microsecond. -/
def envOK : Env :=
  { fault := fun _ => false, stamp := fun t => { t with nanos := t.nanos / 1000 * 1000 } }

/-- The empty store. -/
def emptyDB : DB := { rows := [], seq := 1, trace := [] }

/-- Three rows, one of them completed. -/
def sampleDB : DB :=
  { rows := [ { ID := 1, Title := "a", Description := "", Status := 0, CreatedAt := ⟨2025, 0⟩ },
              { ID := 2, Title := "b", Description := "", Status := 2, CreatedAt := ⟨2025, 5⟩ },
              { ID := 3, Title := "c", Description := "", Status := 1, CreatedAt := ⟨2025, 9⟩ } ]
    seq := 4
    trace := [] }

/-- Two completed rows around one that is not. -/
def sweepDB : DB :=
  { rows := [ { ID := 1, Title := "a", Description := "", Status := 2, CreatedAt := ⟨2025, 0⟩ },
              { ID := 2, Title := "b", Description := "", Status := 0, CreatedAt := ⟨2025, 5⟩ },
              { ID := 3, Title := "c", Description := "", Status := 2, CreatedAt := ⟨2025, 9⟩ } ]
    seq := 4
    trace := [] }

/-- The second statement sent fails, no other. -/
def envSecondFails : Env := { fault := fun n => n == 1, stamp := fun t => t }

/-- One row whose creation year has five digits. -/
def farFutureDB : DB :=
  { rows := [ { ID := 1, Title := "a", Description := "", Status := 0,
                CreatedAt := ⟨10000, 0⟩ } ]
    seq := 2
    trace := [] }

/-! ## Scenario drivers and spec-side predicates -/

/-- Is a row with this id removed by the deletes of a sweep that start at
position `base` of the trace: some delete of that id does not fail. -/
def deletedBy (env : Env) : Nat → List Task → Int → Bool
  | _, [], _ => false
  | base, t :: ts, id => (t.ID == id && !env.fault base) || deletedBy env (base + 1) ts id

/-- The arguments of one `CreateTask` call, with the clock reading it sees. -/
structure CreateArgs where
  now : Time
  title : String
  description : String
  status : Int
deriving DecidableEq, Repr

/-- Call `CreateTask` once per element, in order; the returned pairs are kept. -/
def createAll (env : Env) : List CreateArgs → DB → List (Task × Option Err) × DB
  | [], db => ([], db)
  | a :: as, db =>
    let c := TaskService.CreateTask env a.now a.title a.description a.status db
    let rest := createAll env as c.2.2
    ((c.1, c.2.1) :: rest.1, rest.2)

/-- Call `DeleteTask` once per id, in order; the returned errors are kept. -/
def deleteAll (env : Env) : List Int → DB → List (Option Err) × DB
  | [], db => ([], db)
  | id :: ids, db =>
    let d := TaskService.DeleteTask env id db
    let rest := deleteAll env ids d.2
    (d.1 :: rest.1, rest.2)

/-- Spec-side reading of "numeric": an optional sign followed by one or more
decimal digits. -/
def isNumeric (s : String) : Bool :=
  match s.data with
  | [] => false
  | c :: cs =>
    let digits := if c = '+' ∨ c = '-' then cs else c :: cs
    !digits.isEmpty && digits.all Char.isDigit

/-- The characters after an optional leading sign. -/
def unsignedPart (s : String) : List Char :=
  match s.data with
  | [] => []
  | c :: cs => if c = '+' ∨ c = '-' then cs else c :: cs

/-- The decimal value of a run of digits read after the value `n`. -/
def digitsValueFrom (n : Nat) (ds : List Char) : Nat :=
  ds.foldl (fun m c => m * 10 + (c.toNat - 48)) n

/-- The decimal value of the digits a string starts with, after its sign. -/
def leadingValue (s : String) : Nat :=
  digitsValueFrom 0 ((unsignedPart s).takeWhile Char.isDigit)

/-! ## Basic facts -/

theorem foldl_append (rs : List Task) (s : TaskSlice) :
    rs.foldl append s = if rs = [] then s else some (s.getD [] ++ rs) := by
  induction rs generalizing s with
  | nil => simp
  | cons r rs ih =>
    rw [List.foldl_cons, ih]
    by_cases h : rs = []
    · simp [h, append]
    · simp [h, append]

theorem scanRows_getD (rs : List Task) : (scanRows rs).getD [] = rs := by
  unfold scanRows
  rw [foldl_append]
  by_cases h : rs = [] <;> simp [h]

theorem len_scanRows (rs : List Task) : len (scanRows rs) = rs.length := by
  unfold len
  rw [scanRows_getD]

theorem scanRows_nil : scanRows [] = none := rfl

theorem scanRows_ne_nil (rs : List Task) (h : rs ≠ []) : scanRows rs = some rs := by
  unfold scanRows
  rw [foldl_append]
  simp [h]

/-- The delete loop of the sweeper, from any store. -/
theorem deleteLoop_eq (env : Env) (ts : List Task) (db : DB) :
    ts.foldl (fun d task => (TaskService.DeleteTask env task.ID d).2) db =
      { rows := db.rows.filter (fun r => !deletedBy env db.trace.length ts r.ID)
        seq := db.seq
        trace := db.trace ++ ts.map (fun t => Stmt.delete t.ID) } := by
  induction ts generalizing db with
  | nil => simp [deletedBy]
  | cons t ts ih =>
    rw [List.foldl_cons, ih]
    by_cases hf : env.fault db.trace.length = true
    · simp [TaskService.DeleteTask, TaskRepository.Delete, Env.fails, DB.sent, hf, deletedBy]
    · simp only [Bool.not_eq_true] at hf
      simp only [TaskService.DeleteTask, TaskRepository.Delete, Env.fails, DB.sent, hf,
        deletedBy, List.length_append, List.length_singleton, List.filter_filter,
        List.map_cons, List.append_assoc, List.singleton_append, DB.mk.injEq, and_true,
        Bool.false_eq_true, if_false, Bool.not_false, Bool.and_true]
      apply List.filter_congr
      intro r _
      by_cases h : t.ID = r.ID
      · simp [h]
      · have h2 : ¬ r.ID = t.ID := fun e => h e.symm
        simp [h, h2]

theorem deletedBy_iff (env : Env) (ts : List Task) (base : Nat) (id : Int) :
    deletedBy env base ts id = true ↔
      ∃ i, ∃ h : i < ts.length, (ts.get ⟨i, h⟩).ID = id ∧ env.fault (base + i) = false := by
  induction ts generalizing base with
  | nil => simp [deletedBy]
  | cons t ts ih =>
    simp only [deletedBy, Bool.or_eq_true, Bool.and_eq_true, beq_iff_eq, Bool.not_eq_true', ih]
    constructor
    · rintro (⟨h1, h2⟩ | ⟨i, hi, h1, h2⟩)
      · exact ⟨0, by simp, by simpa using h1, by simpa using h2⟩
      · refine ⟨i + 1, by simpa using hi, by simpa using h1, ?_⟩
        rw [← h2]; congr 1; omega
    · rintro ⟨i, hi, h1, h2⟩
      cases i with
      | zero => left; exact ⟨by simpa using h1, by simpa using h2⟩
      | succ i =>
        right
        refine ⟨i, by simpa using hi, by simpa using h1, ?_⟩
        rw [← h2]; congr 1; omega

/-- One sweep pass whose fetch does not fail, from any store. -/
theorem checkCompletedTasks_eq (env : Env) (db : DB) (hget : env.fault db.trace.length = false) :
    TaskTimer.checkCompletedTasks env db =
      { rows := db.rows.filter (fun r =>
          !deletedBy env (db.trace.length + 1) (db.rows.filter (fun r => r.Status = 2)) r.ID)
        seq := db.seq
        trace := db.trace ++ Stmt.selectCompleted ::
          (db.rows.filter (fun r => r.Status = 2)).map (fun t => Stmt.delete t.ID) } := by
  simp only [TaskTimer.checkCompletedTasks, TaskService.GetCompletedTasks,
    TaskRepository.GetCompletedTasks, Env.fails, hget, Bool.false_eq_true, if_false,
    len_scanRows, scanRows_getD]
  split
  · next h =>
    have h0 : db.rows.filter (fun r => r.Status = 2) = [] := List.length_eq_zero.mp h
    simp [h0, deletedBy, DB.sent]
  · rw [deleteLoop_eq]
    simp [DB.sent]

theorem deletedBy_noFault (env : Env) (ts : List Task) (base : Nat) (id : Int)
    (hok : ∀ n, base ≤ n → env.fault n = false) :
    deletedBy env base ts id = true ↔ id ∈ ts.map Task.ID := by
  rw [deletedBy_iff, List.mem_map]
  constructor
  · rintro ⟨i, hi, h1, _⟩
    exact ⟨ts.get ⟨i, hi⟩, List.get_mem _ _ _, h1⟩
  · rintro ⟨t, ht, h1⟩
    obtain ⟨n, hn⟩ := List.get_of_mem ht
    exact ⟨n.1, n.2, by rw [hn]; exact h1, hok _ (by omega)⟩

theorem primaryKey_inj (db : DB) (hpk : db.PrimaryKey) {r t : Task} (hr : r ∈ db.rows)
    (ht : t ∈ db.rows) (h : r.ID = t.ID) : r = t :=
  List.inj_on_of_nodup_map hpk hr ht h

/-- A sweep pass in which no statement fails keeps exactly the rows that are
not completed, when ids are unique. -/
theorem checkCompletedTasks_rows (env : Env) (db : DB) (hpk : db.PrimaryKey)
    (hok : ∀ n, db.trace.length ≤ n → env.fault n = false) :
    (TaskTimer.checkCompletedTasks env db).rows = db.rows.filter (fun t => t.Status ≠ 2) := by
  rw [checkCompletedTasks_eq env db (hok _ (le_refl _))]
  apply List.filter_congr
  intro r hr
  have key : deletedBy env (db.trace.length + 1) (db.rows.filter (fun r => r.Status = 2)) r.ID
      = true ↔ r.Status = 2 := by
    rw [deletedBy_noFault env _ _ _ (fun n hn => hok n (by omega)), List.mem_map]
    constructor
    · rintro ⟨t, ht, h1⟩
      rw [List.mem_filter] at ht
      have : t = r := primaryKey_inj db hpk ht.1 hr h1
      subst this
      simpa using ht.2
    · intro h
      exact ⟨r, by simp [List.mem_filter, hr, h], rfl⟩
  by_cases h : r.Status = 2
  · simp [h, key.mpr h]
  · have : deletedBy env (db.trace.length + 1) (db.rows.filter (fun r => r.Status = 2)) r.ID
        = false := by
      rw [← Bool.not_eq_true]; exact fun e => h (key.mp e)
    simp [h, this]

/-! ## The claims -/

/-- C1: from a store whose ids are unique, a sweep pass in which no store call
fails leaves no task with status 2, keeps every task whose status is not 2
unchanged (the rows left are exactly those, in order), and after creating three
tasks with status 0, 1 and 2 in an empty table and running one pass, listing
returns exactly the first two. -/
theorem checkCompletedTasks_purges_completed (env : Env) (db : DB) (hpk : db.PrimaryKey)
    (hok : ∀ n, db.trace.length ≤ n → env.fault n = false) :
    (∀ t ∈ (TaskTimer.checkCompletedTasks env db).rows, t.Status ≠ 2) ∧
    (∀ t ∈ db.rows, t.Status ≠ 2 → t ∈ (TaskTimer.checkCompletedTasks env db).rows) ∧
    (TaskTimer.checkCompletedTasks env db).rows = db.rows.filter (fun t => t.Status ≠ 2) ∧
    (db.rows = [] → ∀ (now0 now1 now2 : Time) (t0 d0 t1 d1 t2 d2 : String),
      let c0 := TaskService.CreateTask env now0 t0 d0 0 db
      let c1 := TaskService.CreateTask env now1 t1 d1 1 c0.2.2
      let c2 := TaskService.CreateTask env now2 t2 d2 2 c1.2.2
      let listed := TaskService.GetAllTasks env (TaskTimer.checkCompletedTasks env c2.2.2)
      c0.2.1 = none ∧ c1.2.1 = none ∧ c2.2.1 = none ∧ listed.2.1 = none ∧
      listed.1 = some [ { c0.1 with CreatedAt := env.stamp now0 },
                        { c1.1 with CreatedAt := env.stamp now1 } ] ∧
      c0.1.Status = 0 ∧ c1.1.Status = 1 ∧ c2.1.Status = 2 ∧ c0.1.ID ≠ c1.1.ID) := by
  have hrows := checkCompletedTasks_rows env db hpk hok
  refine ⟨?_, ?_, hrows, ?_⟩
  · intro t ht
    rw [hrows, List.mem_filter] at ht
    simpa using ht.2
  · intro t ht hs
    rw [hrows, List.mem_filter]
    exact ⟨ht, by simpa using hs⟩
  · intro hempty now0 now1 now2 t0 d0 t1 d1 t2 d2
    have f0 := hok db.trace.length (le_refl _)
    have f1 := hok (db.trace.length + 1) (by omega)
    have f2 := hok (db.trace.length + 1 + 1) (by omega)
    have f3 := hok (db.trace.length + 1 + 1 + 1) (by omega)
    have f4 := hok (db.trace.length + 1 + 1 + 1 + 1) (by omega)
    have f5 := hok (db.trace.length + 1 + 1 + 1 + 1 + 1) (by omega)
    have e1 : ¬ (db.seq + 1 + 1 = db.seq) := by omega
    have e2 : ¬ (db.seq = db.seq + 1 + 1) := by omega
    have e3 : ¬ (db.seq + 1 = db.seq + 1 + 1) := by omega
    simp [TaskService.CreateTask, TaskRepository.Create, Env.fails, DB.sent, hempty, f0, f1, f2,
      TaskService.GetAllTasks, TaskRepository.GetAll, checkCompletedTasks_eq, deletedBy, f3, f4,
      f5, scanRows, append, e1, e2, e3]

/-- C1 holds at a store with one completed task among three, and at the empty store. -/
theorem checkCompletedTasks_purges_completed_witness :
    sampleDB.PrimaryKey ∧
    (TaskTimer.checkCompletedTasks envOK sampleDB).rows
      = sampleDB.rows.filter (fun t => t.Status ≠ 2) ∧
    (TaskService.GetAllTasks envOK (TaskTimer.checkCompletedTasks envOK
        (TaskService.CreateTask envOK ⟨2025, 3000⟩ "z" "" 2
          (TaskService.CreateTask envOK ⟨2025, 2000⟩ "y" "" 1
            (TaskService.CreateTask envOK ⟨2025, 1000⟩ "x" "" 0 emptyDB).2.2).2.2).2.2)).1
      = some [ { ID := 1, Title := "x", Description := "", Status := 0, CreatedAt := ⟨2025, 1000⟩ },
               { ID := 2, Title := "y", Description := "", Status := 1, CreatedAt := ⟨2025, 2000⟩ } ] :=
  ⟨by decide,
   (checkCompletedTasks_purges_completed envOK sampleDB (by decide) (fun _ _ => rfl)).2.2.1,
   ((checkCompletedTasks_purges_completed envOK emptyDB (by decide) (fun _ _ => rfl)).2.2.2 rfl
      ⟨2025, 1000⟩ ⟨2025, 2000⟩ ⟨2025, 3000⟩ "x" "" "y" "" "z" "").2.2.2.2.1⟩

/-- Go `Create` succeeds exactly when the statement does not fail and the
generated id is not yet a key. -/
theorem Create_ok_iff (env : Env) (task : Task) (db : DB) :
    (TaskRepository.Create env task db).2.1 = none ↔
      env.fault db.trace.length = false ∧ db.seq ∉ db.rows.map Task.ID := by
  unfold TaskRepository.Create Env.fails
  by_cases hf : env.fault db.trace.length = true
  · simp [hf]
  · by_cases hk : db.seq ∈ db.rows.map Task.ID
    · simp only [Bool.not_eq_true] at hf
      simp [hf, hk]
    · simp only [Bool.not_eq_true] at hf
      simp [hf, hk]

/-- The result of a `Create` that succeeds. -/
theorem Create_ok (env : Env) (task : Task) (db : DB)
    (hok : (TaskRepository.Create env task db).2.1 = none) :
    TaskRepository.Create env task db =
      ({ task with ID := db.seq }, none,
        { rows := db.rows ++ [{ ID := db.seq, Title := task.Title,
                                Description := task.Description, Status := task.Status,
                                CreatedAt := env.stamp task.CreatedAt }]
          seq := db.seq + 1
          trace := db.trace ++
            [Stmt.insert task.Title task.Description task.Status task.CreatedAt] }) := by
  obtain ⟨hf, hk⟩ := (Create_ok_iff env task db).mp hok
  unfold TaskRepository.Create Env.fails
  simp only [hf, Bool.false_eq_true, if_false, hk, DB.sent]

/-- C2: a CreateTask whose insert succeeds returns a task with the id the
store assigned (the id of the row it added) and the given title, description
and status; a following GetTaskByID with that id, when its query does not fail,
yields the same task with created_at as the store represents it. -/
theorem CreateTask_GetTaskByID_roundtrip (env : Env) (db : DB) (now : Time)
    (title description : String) (status : Int)
    (hok : (TaskService.CreateTask env now title description status db).2.1 = none) :
    (TaskService.CreateTask env now title description status db).1 =
      { ID := db.seq, Title := title, Description := description, Status := status,
        CreatedAt := now } ∧
    (TaskService.CreateTask env now title description status db).2.2.rows =
      db.rows ++ [{ ID := db.seq, Title := title, Description := description, Status := status,
                    CreatedAt := env.stamp now }] ∧
    (env.fault (TaskService.CreateTask env now title description status db).2.2.trace.length
        = false →
      (TaskService.GetTaskByID env
          (TaskService.CreateTask env now title description status db).1.ID
          (TaskService.CreateTask env now title description status db).2.2).1 =
        some { ID := db.seq, Title := title, Description := description, Status := status,
               CreatedAt := env.stamp now } ∧
      (TaskService.GetTaskByID env
          (TaskService.CreateTask env now title description status db).1.ID
          (TaskService.CreateTask env now title description status db).2.2).2.1 = none) := by
  unfold TaskService.CreateTask at hok ⊢
  have hk := ((Create_ok_iff env _ db).mp hok).2
  rw [Create_ok env _ db hok]
  refine ⟨rfl, rfl, ?_⟩
  intro hf
  have hnone : db.rows.find? (fun r => r.ID == db.seq) = none := by
    rw [List.find?_eq_none]
    intro r hr
    simp only [beq_iff_eq]
    intro e
    exact hk (List.mem_map.mpr ⟨r, hr, e⟩)
  simp only [List.length_append, List.length_singleton] at hf
  simp [TaskService.GetTaskByID, TaskRepository.GetByID, Env.fails, hf, List.find?_append, hnone]

/-- C2 holds for a first task created in the empty store. -/
theorem CreateTask_GetTaskByID_roundtrip_witness :
    (TaskService.CreateTask envOK ⟨2025, 1234567⟩ "t" "d" 1 emptyDB).2.1 = none ∧
    (TaskService.GetTaskByID envOK 1
        (TaskService.CreateTask envOK ⟨2025, 1234567⟩ "t" "d" 1 emptyDB).2.2).1 =
      some { ID := 1, Title := "t", Description := "d", Status := 1,
             CreatedAt := ⟨2025, 1234000⟩ } :=
  ⟨rfl, ((CreateTask_GetTaskByID_roundtrip envOK emptyDB ⟨2025, 1234567⟩ "t" "d" 1 rfl).2.2
    rfl).1⟩

/-- C3: a successful UpdateTask leaves the sequence and the number and order
of rows as they were; every row keeps its id and created_at; a row with the
given id gets the given title, description and status; a row with another id is
unchanged in all fields. -/
theorem UpdateTask_frame (env : Env) (db : DB) (id : Int) (title description : String)
    (status : Int)
    (hok : (TaskService.UpdateTask env id title description status db).1 = none) :
    (TaskService.UpdateTask env id title description status db).2.seq = db.seq ∧
    List.Forall₂
      (fun old new =>
        new.ID = old.ID ∧ new.CreatedAt = old.CreatedAt ∧
        (old.ID = id → new.Title = title ∧ new.Description = description ∧ new.Status = status) ∧
        (old.ID ≠ id → new = old))
      db.rows (TaskService.UpdateTask env id title description status db).2.rows := by
  unfold TaskService.UpdateTask TaskRepository.Update Env.fails at hok ⊢
  by_cases hf : env.fault db.trace.length = true
  · simp [hf] at hok
  · simp only [Bool.not_eq_true] at hf
    simp only [hf, Bool.false_eq_true, if_false, DB.sent, true_and]
    rw [List.forall₂_map_right_iff, List.forall₂_same]
    intro r _
    by_cases h : r.ID = id
    · simp [h]
    · simp [h]

/-- C3 holds for an update of the second of three rows. -/
theorem UpdateTask_frame_witness :
    (TaskService.UpdateTask envOK 2 "new" "text" 1 sampleDB).1 = none ∧
    (TaskService.UpdateTask envOK 2 "new" "text" 1 sampleDB).2.rows =
      [ { ID := 1, Title := "a", Description := "", Status := 0, CreatedAt := ⟨2025, 0⟩ },
        { ID := 2, Title := "new", Description := "text", Status := 1, CreatedAt := ⟨2025, 5⟩ },
        { ID := 3, Title := "c", Description := "", Status := 1, CreatedAt := ⟨2025, 9⟩ } ] ∧
    (TaskService.UpdateTask envOK 2 "new" "text" 1 sampleDB).2.seq = sampleDB.seq :=
  ⟨rfl, by decide, (UpdateTask_frame envOK sampleDB 2 "new" "text" 1 rfl).1⟩

/-- C5: when the body does not decode, POST /tasks and PUT /tasks/{id} answer
400 with the text "Invalid request" and return the store as it was, trace
included: no statement is sent, so no task operation is called. -/
theorem undecodable_body_is_rejected (env : Env) (now : Time) (r : Request) (db : DB)
    (hbody : r.body = none) :
    (TaskHandler.CreateTask env now ResponseWriter.new r db).1.status = some 400 ∧
    (TaskHandler.CreateTask env now ResponseWriter.new r db).1.body
      = [Chunk.raw "Invalid request\n"] ∧
    (TaskHandler.CreateTask env now ResponseWriter.new r db).2 = db ∧
    (TaskHandler.UpdateTask env ResponseWriter.new r db).1.status = some 400 ∧
    (TaskHandler.UpdateTask env ResponseWriter.new r db).1.body
      = [Chunk.raw "Invalid request\n"] ∧
    (TaskHandler.UpdateTask env ResponseWriter.new r db).2 = db := by
  simp [TaskHandler.CreateTask, TaskHandler.UpdateTask, hbody, ResponseWriter.Error,
    ResponseWriter.new, ResponseWriter.SetContentType, ResponseWriter.WriteHeader,
    ResponseWriter.Write]

/-- C5 holds for a request to task 2 with an undecodable body. -/
theorem undecodable_body_is_rejected_witness :
    (TaskHandler.UpdateTask envOK ResponseWriter.new ⟨"2", none⟩ sampleDB).1.status = some 400 ∧
    (TaskHandler.UpdateTask envOK ResponseWriter.new ⟨"2", none⟩ sampleDB).2 = sampleDB :=
  ⟨(undecodable_body_is_rejected envOK ⟨2025, 0⟩ ⟨"2", none⟩ sampleDB rfl).2.2.2.1,
   (undecodable_body_is_rejected envOK ⟨2025, 0⟩ ⟨"2", none⟩ sampleDB rfl).2.2.2.2.2⟩

/-- C7: a DeleteTask whose statement does not fail returns no error and, when
no row has the id, leaves table and sequence unchanged; a second DeleteTask of
the same id whose statement does not fail returns no error and leaves table and
sequence as the first call left them. -/
theorem DeleteTask_idempotent (env : Env) (db : DB) (id : Int)
    (h1 : env.fault db.trace.length = false) :
    (TaskService.DeleteTask env id db).1 = none ∧
    ((∀ r ∈ db.rows, r.ID ≠ id) →
      (TaskService.DeleteTask env id db).2.rows = db.rows ∧
      (TaskService.DeleteTask env id db).2.seq = db.seq) ∧
    (env.fault (db.trace.length + 1) = false →
      (TaskService.DeleteTask env id (TaskService.DeleteTask env id db).2).1 = none ∧
      (TaskService.DeleteTask env id (TaskService.DeleteTask env id db).2).2.rows
        = (TaskService.DeleteTask env id db).2.rows ∧
      (TaskService.DeleteTask env id (TaskService.DeleteTask env id db).2).2.seq
        = (TaskService.DeleteTask env id db).2.seq) := by
  refine ⟨?_, ?_, ?_⟩
  · simp [TaskService.DeleteTask, TaskRepository.Delete, Env.fails, h1]
  · intro hno
    simp only [TaskService.DeleteTask, TaskRepository.Delete, Env.fails, h1, DB.sent,
      Bool.false_eq_true, if_false, and_true]
    rw [List.filter_eq_self]
    intro r hr
    simpa using hno r hr
  · intro h2
    simp [TaskService.DeleteTask, TaskRepository.Delete, Env.fails, h1, h2, DB.sent,
      List.filter_filter]

/-- C7 holds for deleting task 2 twice, and for deleting an absent id. -/
theorem DeleteTask_idempotent_witness :
    (TaskService.DeleteTask envOK 2 (TaskService.DeleteTask envOK 2 sampleDB).2).1 = none ∧
    (TaskService.DeleteTask envOK 2 (TaskService.DeleteTask envOK 2 sampleDB).2).2.rows
      = (TaskService.DeleteTask envOK 2 sampleDB).2.rows ∧
    (TaskService.DeleteTask envOK 7 sampleDB).2.rows = sampleDB.rows :=
  ⟨((DeleteTask_idempotent envOK sampleDB 2 rfl).2.2 rfl).1,
   ((DeleteTask_idempotent envOK sampleDB 2 rfl).2.2 rfl).2.1,
   ((DeleteTask_idempotent envOK sampleDB 7 rfl).2.1 (by decide)).1⟩

/-- C10: in a sweep pass whose fetch succeeds, the statements sent after the
fetch are exactly one delete per task of the fetched batch, in the order of the
batch, whichever of them fail; no row with the id of a task whose delete did
not fail is left; rows are only removed, and a row is kept when every delete of
its id failed. -/
theorem checkCompletedTasks_deletes_whole_batch (env : Env) (db : DB)
    (hget : (TaskService.GetCompletedTasks env db).2.1 = none) :
    (TaskTimer.checkCompletedTasks env db).trace =
      db.trace ++ Stmt.selectCompleted ::
        ((TaskService.GetCompletedTasks env db).1.getD []).map (fun t => Stmt.delete t.ID) ∧
    (∀ i, ∀ h : i < ((TaskService.GetCompletedTasks env db).1.getD []).length,
      env.fault (db.trace.length + 1 + i) = false →
      ∀ r ∈ (TaskTimer.checkCompletedTasks env db).rows,
        r.ID ≠ (((TaskService.GetCompletedTasks env db).1.getD []).get ⟨i, h⟩).ID) ∧
    (TaskTimer.checkCompletedTasks env db).rows.Sublist db.rows ∧
    (∀ r ∈ db.rows,
      (∀ i, ∀ h : i < ((TaskService.GetCompletedTasks env db).1.getD []).length,
        (((TaskService.GetCompletedTasks env db).1.getD []).get ⟨i, h⟩).ID = r.ID →
        env.fault (db.trace.length + 1 + i) = true) →
      r ∈ (TaskTimer.checkCompletedTasks env db).rows) := by
  have hf : env.fault db.trace.length = false := by
    by_cases h : env.fault db.trace.length = true
    · simp [TaskService.GetCompletedTasks, TaskRepository.GetCompletedTasks, Env.fails, h] at hget
    · simpa using h
  have hsnap : (TaskService.GetCompletedTasks env db).1.getD []
      = db.rows.filter (fun r => r.Status = 2) := by
    simp [TaskService.GetCompletedTasks, TaskRepository.GetCompletedTasks, Env.fails, hf,
      scanRows_getD]
  rw [hsnap, checkCompletedTasks_eq env db hf]
  refine ⟨rfl, ?_, List.filter_sublist _, ?_⟩
  · intro i h hi r hr e
    rw [List.mem_filter] at hr
    have hd : deletedBy env (db.trace.length + 1) (db.rows.filter (fun r => r.Status = 2)) r.ID
        = true := (deletedBy_iff env _ _ _).mpr ⟨i, h, e.symm, hi⟩
    simp [hd] at hr
  · intro r hr hall
    rw [List.mem_filter]
    refine ⟨hr, ?_⟩
    have hd : ¬ deletedBy env (db.trace.length + 1) (db.rows.filter (fun r => r.Status = 2)) r.ID
        = true := by
      rw [deletedBy_iff]
      rintro ⟨i, h, e, hi⟩
      rw [hall i h e] at hi
      exact absurd hi (by decide)
    simpa using hd

/-- C10 holds for a pass over two completed tasks whose first delete fails:
both deletes are sent and the second task is removed. -/
theorem checkCompletedTasks_deletes_whole_batch_witness :
    (TaskService.GetCompletedTasks envSecondFails sweepDB).2.1 = none ∧
    (TaskTimer.checkCompletedTasks envSecondFails sweepDB).trace
      = [Stmt.selectCompleted, Stmt.delete 1, Stmt.delete 3] ∧
    (TaskTimer.checkCompletedTasks envSecondFails sweepDB).rows.Sublist sweepDB.rows :=
  ⟨rfl, (checkCompletedTasks_deletes_whole_batch envSecondFails sweepDB rfl).1,
   (checkCompletedTasks_deletes_whole_batch envSecondFails sweepDB rfl).2.2.1⟩

theorem length_filter_not_mem (L ids : List Int) (h1 : L.Nodup) (h2 : ids.Nodup)
    (h3 : ∀ i ∈ ids, i ∈ L) :
    (L.filter (fun x => decide (x ∉ ids))).length = L.length - ids.length := by
  have hp : (L.filter (fun x => decide (x ∈ ids))).Perm ids := by
    rw [List.perm_ext_iff_of_nodup (h1.filter _) h2]
    intro a
    simp only [List.mem_filter, decide_eq_true_eq]
    exact ⟨fun h => h.2, fun h => ⟨h3 a h, h⟩⟩
  have hl := List.length_eq_countP_add_countP (fun x => decide (x ∈ ids)) L
  rw [List.countP_eq_length_filter, List.countP_eq_length_filter, hp.length_eq] at hl
  have e : (fun a => decide ¬(fun x => decide (x ∈ ids)) a = true)
      = (fun x => decide (x ∉ ids)) := by
    funext x; simp
  rw [e] at hl
  omega

/-- A run of creates that all succeed appends one row per call, with the
returned ids, and keeps ids unique. -/
theorem createAll_rows (env : Env) (args : List CreateArgs) (db : DB)
    (hall : ∀ c ∈ (createAll env args db).1, c.2 = none) :
    (createAll env args db).2.rows.map Task.ID
      = db.rows.map Task.ID ++ (createAll env args db).1.map (fun c => c.1.ID) ∧
    (createAll env args db).1.length = args.length ∧
    (db.PrimaryKey → (createAll env args db).2.PrimaryKey) := by
  induction args generalizing db with
  | nil => simp [createAll]
  | cons a as ih =>
    simp only [createAll, List.mem_cons, forall_eq_or_imp] at hall
    obtain ⟨h0, hrest⟩ := hall
    have hk := ((Create_ok_iff env _ db).mp h0).2
    have hc := Create_ok env _ db h0
    unfold TaskService.CreateTask at hrest
    rw [hc] at hrest
    obtain ⟨i1, i2, i3⟩ := ih _ hrest
    simp only [createAll, TaskService.CreateTask]
    rw [hc]
    refine ⟨?_, ?_, ?_⟩
    · rw [i1]; simp
    · simp [i2]
    · intro hpk
      apply i3
      unfold DB.PrimaryKey at hpk ⊢
      simp only [List.map_append, List.map_cons, List.map_nil]
      rw [List.nodup_append]
      refine ⟨hpk, List.nodup_singleton _, ?_⟩
      intro x hx hx2
      rw [List.mem_singleton] at hx2
      exact hk (hx2 ▸ hx)

/-- A run of deletes that all succeed removes the rows with those ids. -/
theorem deleteAll_rows (env : Env) (ids : List Int) (db : DB)
    (hall : ∀ e ∈ (deleteAll env ids db).1, e = none) :
    (deleteAll env ids db).2.rows = db.rows.filter (fun r => decide (r.ID ∉ ids)) := by
  induction ids generalizing db with
  | nil => simp [deleteAll]
  | cons id ids ih =>
    simp only [deleteAll, List.mem_cons, forall_eq_or_imp] at hall
    obtain ⟨h0, hrest⟩ := hall
    have hf : env.fault db.trace.length = false := by
      by_cases h : env.fault db.trace.length = true
      · simp [TaskService.DeleteTask, TaskRepository.Delete, Env.fails, h] at h0
      · simpa using h
    simp only [deleteAll]
    rw [ih _ hrest]
    simp only [TaskService.DeleteTask, TaskRepository.Delete, Env.fails, hf, DB.sent,
      Bool.false_eq_true, if_false, List.filter_filter]
    apply List.filter_congr
    intro r _
    by_cases e : r.ID = id
    · simp [e]
    · simp [e]

/-- C8: starting from an empty table, after one successful CreateTask per
element of `args` and one successful DeleteTask per element of `ids`, where
`ids` has no repetition and holds only ids returned by those creates, a
GetAllTasks that does not fail returns `args.length - ids.length` tasks, and
`ids.length ≤ args.length`. -/
theorem GetAllTasks_after_creates_and_deletes (env : Env) (db : DB) (args : List CreateArgs)
    (ids : List Int) (hempty : db.rows = [])
    (hcreated : ∀ c ∈ (createAll env args db).1, c.2 = none)
    (hdistinct : ids.Nodup)
    (hreturned : ∀ id ∈ ids, id ∈ (createAll env args db).1.map (fun c => c.1.ID))
    (hdeleted : ∀ e ∈ (deleteAll env ids (createAll env args db).2).1, e = none)
    (hlisted : (TaskService.GetAllTasks env
      (deleteAll env ids (createAll env args db).2).2).2.1 = none) :
    len (TaskService.GetAllTasks env (deleteAll env ids (createAll env args db).2).2).1
      = args.length - ids.length ∧
    ids.length ≤ args.length := by
  obtain ⟨c1, c2, c3⟩ := createAll_rows env args db hcreated
  have hpk : (createAll env args db).2.PrimaryKey := c3 (by simp [DB.PrimaryKey, hempty])
  rw [hempty, List.map_nil, List.nil_append] at c1
  have hlen : (createAll env args db).2.rows.length = args.length := by
    rw [← List.length_map (createAll env args db).2.rows Task.ID, c1, List.length_map, c2]
  have hf : env.fault (deleteAll env ids (createAll env args db).2).2.trace.length = false := by
    by_cases h : env.fault (deleteAll env ids (createAll env args db).2).2.trace.length = true
    · simp [TaskService.GetAllTasks, TaskRepository.GetAll, Env.fails, h] at hlisted
    · simpa using h
  have hsub : ∀ i ∈ ids, i ∈ (createAll env args db).2.rows.map Task.ID := by
    intro i hi; rw [c1]; exact hreturned i hi
  constructor
  · simp only [TaskService.GetAllTasks, TaskRepository.GetAll, Env.fails, hf,
      Bool.false_eq_true, if_false, len_scanRows]
    rw [deleteAll_rows env ids _ hdeleted]
    have := length_filter_not_mem _ ids hpk hdistinct hsub
    rw [List.filter_map, List.length_map] at this
    rw [← hlen, ← List.length_map (createAll env args db).2.rows Task.ID, ← this]
    rfl
  · rw [← hlen, ← List.length_map (createAll env args db).2.rows Task.ID]
    have hp : List.Subperm ids ((createAll env args db).2.rows.map Task.ID) :=
      List.subperm_of_subset hdistinct hsub
    exact hp.length_le

/-- C8 holds for three creates and two deletes. -/
theorem GetAllTasks_after_creates_and_deletes_witness :
    len (TaskService.GetAllTasks envOK (deleteAll envOK [3, 1] (createAll envOK
      [⟨⟨2025, 1⟩, "a", "", 0⟩, ⟨⟨2025, 2⟩, "b", "", 1⟩, ⟨⟨2025, 3⟩, "c", "", 0⟩]
      emptyDB).2).2).1 = 3 - 2 :=
  (GetAllTasks_after_creates_and_deletes envOK emptyDB
    [⟨⟨2025, 1⟩, "a", "", 0⟩, ⟨⟨2025, 2⟩, "b", "", 1⟩, ⟨⟨2025, 3⟩, "c", "", 0⟩] [3, 1] rfl
    (by decide) (by decide) (by decide) (by decide) rfl).1

theorem le_digitsValueFrom (ds : List Char) (n : Nat) : n ≤ digitsValueFrom n ds := by
  induction ds generalizing n with
  | nil => simp [digitsValueFrom]
  | cons c cs ih =>
    have := ih (n * 10 + (c.toNat - 48))
    simp only [digitsValueFrom, List.foldl_cons] at this ⊢
    omega

/-- The digit loop ends with a syntax error when it meets a character that is
not a digit before the digits read exceed 64 bits. -/
theorem parseUintLoop_notANumber (cs : List Char) (n : Nat)
    (hbad : cs.all Char.isDigit = false)
    (hsmall : digitsValueFrom n (cs.takeWhile Char.isDigit) ≤ maxUint64) :
    parseUintLoop cs n = (0, some Err.notANumber) := by
  induction cs generalizing n with
  | nil => simp at hbad
  | cons c cs ih =>
    by_cases hc : c.isDigit = true
    · simp only [List.takeWhile_cons, hc, if_true] at hsmall
      have h1 : digitsValueFrom n (c :: cs.takeWhile Char.isDigit)
          = digitsValueFrom (n * 10 + (c.toNat - 48)) (cs.takeWhile Char.isDigit) := by
        simp [digitsValueFrom]
      rw [h1] at hsmall
      have h2 := le_digitsValueFrom (cs.takeWhile Char.isDigit) (n * 10 + (c.toNat - 48))
      have h3 : n * 10 + (c.toNat - 48) ≤ maxUint64 := le_trans h2 hsmall
      have h4 : ¬ (n ≥ maxUint64 / 10 + 1) := by
        have : maxUint64 = 18446744073709551615 := by decide
        rw [this] at h3 ⊢
        omega
      have h5 : ¬ (n * 10 + (c.toNat - 48) > maxUint64) := by omega
      have hbad2 : cs.all Char.isDigit = false := by
        simpa [List.all_cons, hc] using hbad
      simp only [parseUintLoop, hc, if_true, h4, h5, if_false]
      exact ih _ hbad2 hsmall
    · simp [parseUintLoop, hc]

/-- Go `Atoi` gives 0 with a syntax error on a string that is not numeric and
whose leading digits do not exceed 64 bits. -/
theorem Atoi_notANumber (s : String) (hnn : isNumeric s = false)
    (hsmall : leadingValue s ≤ maxUint64) : Atoi s = (0, some Err.notANumber) := by
  unfold Atoi ParseInt
  unfold isNumeric at hnn
  unfold leadingValue unsignedPart at hsmall
  cases hd : s.data with
  | nil => rfl
  | cons c cs =>
    rw [hd] at hnn hsmall
    simp only at hnn hsmall ⊢
    have hu : ParseUint (if c = '+' ∨ c = '-' then cs else c :: cs)
        = (0, some Err.notANumber) := by
      unfold ParseUint
      by_cases he : (if c = '+' ∨ c = '-' then cs else c :: cs) = []
      · simp [he]
      · simp only [he, if_false]
        apply parseUintLoop_notANumber _ _ _ hsmall
        simpa [he] using hnn
    rw [hu]

/-- C4 as stated fails: with a stored task whose creation year is 10000 the
lookup returns the task and no error, and GET /tasks/1 answers 500. -/
theorem GetTaskByID_500_without_store_error :
    (TaskService.GetTaskByID envOK (Atoi "1").1 farFutureDB).2.1 = none ∧
    (TaskHandler.GetTaskByID envOK ResponseWriter.new ⟨"1", none⟩ farFutureDB).1.status
      = some 500 := by
  decide

/-- C4 amended: a GetByID whose query does not fail and matches no row returns
(nil, nil); GET /tasks/{id} answers 500 when the store call returns an error,
404 when it returns no task and no error, 500 when it returns a task whose
created_at cannot be encoded, and otherwise 200 with the encoded task. -/
theorem GetTaskByID_outcomes (env : Env) (r : Request) (db : DB) :
    (∀ id, env.fault db.trace.length = false → (∀ row ∈ db.rows, row.ID ≠ id) →
      (TaskRepository.GetByID env id db).1 = none ∧
      (TaskRepository.GetByID env id db).2.1 = none) ∧
    ((TaskService.GetTaskByID env (Atoi r.idVar).1 db).2.1 ≠ none →
      (TaskHandler.GetTaskByID env ResponseWriter.new r db).1.status = some 500) ∧
    ((TaskService.GetTaskByID env (Atoi r.idVar).1 db).2.1 = none →
      (TaskService.GetTaskByID env (Atoi r.idVar).1 db).1 = none →
      (TaskHandler.GetTaskByID env ResponseWriter.new r db).1.status = some 404) ∧
    (∀ t, (TaskService.GetTaskByID env (Atoi r.idVar).1 db).2.1 = none →
      (TaskService.GetTaskByID env (Atoi r.idVar).1 db).1 = some t →
      t.CreatedAt.marshals = false →
      (TaskHandler.GetTaskByID env ResponseWriter.new r db).1.status = some 500) ∧
    (∀ t, (TaskService.GetTaskByID env (Atoi r.idVar).1 db).2.1 = none →
      (TaskService.GetTaskByID env (Atoi r.idVar).1 db).1 = some t →
      t.CreatedAt.marshals = true →
      (TaskHandler.GetTaskByID env ResponseWriter.new r db).1.status = some 200 ∧
      (TaskHandler.GetTaskByID env ResponseWriter.new r db).1.body
        = [Chunk.encoded (JSON.task t)]) := by
  refine ⟨?_, ?_, ?_, ?_, ?_⟩
  · intro id hf hno
    have hnone : db.rows.find? (fun r => r.ID == id) = none := by
      rw [List.find?_eq_none]
      intro row hrow
      simpa using hno row hrow
    simp [TaskRepository.GetByID, Env.fails, hf, hnone]
  · intro h
    unfold TaskHandler.GetTaskByID
    rcases hres : TaskService.GetTaskByID env (Atoi r.idVar).1 db with ⟨t, e, d⟩
    rw [hres] at h
    cases e with
    | none => exact absurd rfl h
    | some e =>
      simp [hres, ResponseWriter.Error, ResponseWriter.new, ResponseWriter.SetContentType,
        ResponseWriter.WriteHeader, ResponseWriter.Write]
  · intro h1 h2
    unfold TaskHandler.GetTaskByID
    rcases hres : TaskService.GetTaskByID env (Atoi r.idVar).1 db with ⟨t, e, d⟩
    rw [hres] at h1 h2
    simp only at h1 h2
    subst h1 h2
    simp [hres, ResponseWriter.Error, ResponseWriter.new, ResponseWriter.SetContentType,
      ResponseWriter.WriteHeader, ResponseWriter.Write]
  · intro t h1 h2 h3
    unfold TaskHandler.GetTaskByID
    rcases hres : TaskService.GetTaskByID env (Atoi r.idVar).1 db with ⟨t', e, d⟩
    rw [hres] at h1 h2
    simp only at h1 h2
    subst h1 h2
    simp [hres, marshalTask, h3, ResponseWriter.Error, ResponseWriter.new,
      ResponseWriter.SetContentType, ResponseWriter.WriteHeader, ResponseWriter.Write]
  · intro t h1 h2 h3
    unfold TaskHandler.GetTaskByID
    rcases hres : TaskService.GetTaskByID env (Atoi r.idVar).1 db with ⟨t', e, d⟩
    rw [hres] at h1 h2
    simp only at h1 h2
    subst h1 h2
    simp [hres, marshalTask, h3, ResponseWriter.new, ResponseWriter.SetContentType,
      ResponseWriter.WriteHeader, ResponseWriter.Write]

/-- C4 amended holds for id 999999 on the empty store (not found, 404) and for
a stored task (200). -/
theorem GetTaskByID_outcomes_witness :
    ((TaskRepository.GetByID envOK 999999 emptyDB).1 = none ∧
      (TaskRepository.GetByID envOK 999999 emptyDB).2.1 = none) ∧
    (TaskHandler.GetTaskByID envOK ResponseWriter.new ⟨"999999", none⟩ emptyDB).1.status
      = some 404 ∧
    (TaskHandler.GetTaskByID envOK ResponseWriter.new ⟨"3", none⟩ sampleDB).1.status
      = some 200 :=
  ⟨(GetTaskByID_outcomes envOK ⟨"999999", none⟩ emptyDB).1 999999 rfl (by decide),
   (GetTaskByID_outcomes envOK ⟨"999999", none⟩ emptyDB).2.2.1 (by decide) (by decide),
   ((GetTaskByID_outcomes envOK ⟨"3", none⟩ sampleDB).2.2.2.2
      { ID := 3, Title := "c", Description := "", Status := 1, CreatedAt := ⟨2025, 9⟩ }
      (by decide) (by decide) (by decide)).1⟩

/-- C6 as stated fails: with a stored task whose creation year is 10000 the
list query succeeds and GET /tasks answers 500. -/
theorem GetAllTasks_500_though_query_succeeds :
    (TaskService.GetAllTasks envOK farFutureDB).2.1 = none ∧
    (TaskHandler.GetAllTasks envOK ResponseWriter.new ⟨"", none⟩ farFutureDB).1.status
      = some 500 := by
  decide

/-- C6 amended: when the list query succeeds and the created_at of every task
can be encoded, GET /tasks answers 200, and when the table is not empty the
body is the array of all rows in storage order; when the table is empty, GetAll
returns a slice of length 0 and no error. -/
theorem GetAllTasks_lists_every_task (env : Env) (r : Request) (db : DB)
    (hquery : (TaskService.GetAllTasks env db).2.1 = none)
    (hencode : ∀ t ∈ db.rows, t.CreatedAt.marshals = true) :
    (TaskHandler.GetAllTasks env ResponseWriter.new r db).1.status = some 200 ∧
    (db.rows ≠ [] →
      (TaskHandler.GetAllTasks env ResponseWriter.new r db).1.body
        = [Chunk.encoded (JSON.array db.rows)]) ∧
    (db.rows = [] →
      len (TaskRepository.GetAll env db).1 = 0 ∧ (TaskRepository.GetAll env db).2.1 = none) := by
  have hf : env.fault db.trace.length = false := by
    by_cases h : env.fault db.trace.length = true
    · simp [TaskService.GetAllTasks, TaskRepository.GetAll, Env.fails, h] at hquery
    · simpa using h
  have hall : db.rows.all (fun t => t.CreatedAt.marshals) = true := by
    rw [List.all_eq_true]; exact hencode
  refine ⟨?_, ?_, ?_⟩
  · by_cases he : db.rows = []
    · simp [TaskHandler.GetAllTasks, TaskService.GetAllTasks, TaskRepository.GetAll, Env.fails,
        hf, he, scanRows_nil, marshalTasks, ResponseWriter.new, ResponseWriter.SetContentType,
        ResponseWriter.WriteHeader, ResponseWriter.Write]
    · simp [TaskHandler.GetAllTasks, TaskService.GetAllTasks, TaskRepository.GetAll, Env.fails,
        hf, scanRows_ne_nil _ he, marshalTasks, hall, ResponseWriter.new,
        ResponseWriter.SetContentType, ResponseWriter.WriteHeader, ResponseWriter.Write]
  · intro he
    simp [TaskHandler.GetAllTasks, TaskService.GetAllTasks, TaskRepository.GetAll, Env.fails,
      hf, scanRows_ne_nil _ he, marshalTasks, hall, ResponseWriter.new,
      ResponseWriter.SetContentType, ResponseWriter.WriteHeader, ResponseWriter.Write]
  · intro he
    simp [TaskRepository.GetAll, Env.fails, hf, he, scanRows_nil, len]

/-- C6 amended holds for a table of three rows. -/
theorem GetAllTasks_lists_every_task_witness :
    (TaskService.GetAllTasks envOK sampleDB).2.1 = none ∧
    (∀ t ∈ sampleDB.rows, t.CreatedAt.marshals = true) ∧
    (TaskHandler.GetAllTasks envOK ResponseWriter.new ⟨"", none⟩ sampleDB).1.status = some 200 ∧
    (TaskHandler.GetAllTasks envOK ResponseWriter.new ⟨"", none⟩ sampleDB).1.body
      = [Chunk.encoded (JSON.array sampleDB.rows)] :=
  ⟨rfl, by decide,
   (GetAllTasks_lists_every_task envOK ⟨"", none⟩ sampleDB rfl (by decide)).1,
   (GetAllTasks_lists_every_task envOK ⟨"", none⟩ sampleDB rfl (by decide)).2.1 (by decide)⟩

/-- On the empty table GET /tasks answers 200 and the body is the encoding of
the nil slice, `null`. -/
theorem GetAllTasks_empty_table_body :
    (TaskHandler.GetAllTasks envOK ResponseWriter.new ⟨"", none⟩ emptyDB).1
      = { contentType := some "application/json", status := some 200,
          body := [Chunk.encoded JSON.null] } := by
  decide

/-- C9 as stated fails: the segment `99999999999999999999x` is not numeric, yet
GET /tasks/{id} looks up id 9223372036854775807, not 0; and PUT /tasks/abc
with an undecodable body answers 400 and sends no statement. -/
theorem nonNumeric_id_not_always_zero :
    isNumeric "99999999999999999999x" = false ∧
    (TaskHandler.GetTaskByID envOK ResponseWriter.new ⟨"99999999999999999999x", none⟩
        emptyDB).2.trace = [Stmt.selectByID 9223372036854775807] ∧
    isNumeric "abc" = false ∧
    (TaskHandler.UpdateTask envOK ResponseWriter.new ⟨"abc", none⟩ sampleDB).1.status
      = some 400 ∧
    (TaskHandler.UpdateTask envOK ResponseWriter.new ⟨"abc", none⟩ sampleDB).2 = sampleDB := by
  decide

/-- C9 amended: for a path id segment that is not numeric and whose leading
digits do not exceed 64 bits, GET and DELETE /tasks/{id} send their statement
with id 0, PUT does so whenever its body decodes, and each of the three
handlers answers as it does for the segment `0`. -/
theorem nonNumeric_id_is_zero (env : Env) (r : Request) (db : DB)
    (hnn : isNumeric r.idVar = false) (hsmall : leadingValue r.idVar ≤ maxUint64) :
    (TaskHandler.GetTaskByID env ResponseWriter.new r db).2.trace
      = db.trace ++ [Stmt.selectByID 0] ∧
    (TaskHandler.DeleteTask env ResponseWriter.new r db).2.trace
      = db.trace ++ [Stmt.delete 0] ∧
    (∀ t, r.body = some t →
      (TaskHandler.UpdateTask env ResponseWriter.new r db).2.trace
        = db.trace ++ [Stmt.update t.Title t.Description t.Status 0]) ∧
    TaskHandler.GetTaskByID env ResponseWriter.new r db
      = TaskHandler.GetTaskByID env ResponseWriter.new { r with idVar := "0" } db ∧
    TaskHandler.DeleteTask env ResponseWriter.new r db
      = TaskHandler.DeleteTask env ResponseWriter.new { r with idVar := "0" } db ∧
    TaskHandler.UpdateTask env ResponseWriter.new r db
      = TaskHandler.UpdateTask env ResponseWriter.new { r with idVar := "0" } db := by
  have h0 : (Atoi r.idVar).1 = 0 := by rw [Atoi_notANumber r.idVar hnn hsmall]
  have h1 : (Atoi "0").1 = 0 := by decide
  refine ⟨?_, ?_, ?_, ?_, ?_, ?_⟩
  · simp only [TaskHandler.GetTaskByID, h0, TaskService.GetTaskByID, TaskRepository.GetByID]
    by_cases hf : env.fails db = true
    · simp [hf, DB.sent]
    · simp only [hf, if_false]
      cases hfind : db.rows.find? (fun r => r.ID == 0) with
      | none => simp [DB.sent]
      | some t =>
        cases hm : marshalTask t with
        | none => simp [hm, DB.sent]
        | some v => simp [hm, DB.sent]
  · simp only [TaskHandler.DeleteTask, h0, TaskService.DeleteTask, TaskRepository.Delete]
    by_cases hf : env.fails db = true
    · simp [hf, DB.sent]
    · simp [hf, DB.sent]
  · intro t ht
    simp only [TaskHandler.UpdateTask, h0, ht, TaskService.UpdateTask, TaskRepository.Update]
    by_cases hf : env.fails db = true
    · simp [hf, DB.sent]
    · simp [hf, DB.sent]
  · simp only [TaskHandler.GetTaskByID, h0, h1]
  · simp only [TaskHandler.DeleteTask, h0, h1]
  · simp only [TaskHandler.UpdateTask, h0, h1]

/-- C9 amended holds for the segment `abc`. -/
theorem nonNumeric_id_is_zero_witness :
    isNumeric "abc" = false ∧ leadingValue "abc" ≤ maxUint64 ∧
    (TaskHandler.DeleteTask envOK ResponseWriter.new ⟨"abc", none⟩ sampleDB).2.trace
      = [Stmt.delete 0] ∧
    (TaskHandler.UpdateTask envOK ResponseWriter.new ⟨"abc", some Task.zero⟩ sampleDB).2.trace
      = [Stmt.update "" "" 0 0] :=
  ⟨by decide, by decide,
   (nonNumeric_id_is_zero envOK ⟨"abc", none⟩ sampleDB (by decide) (by decide)).2.1,
   (nonNumeric_id_is_zero envOK ⟨"abc", some Task.zero⟩ sampleDB (by decide)
      (by decide)).2.2.1 Task.zero rfl⟩

end TaskManager
